import Mathlib

/-!
Shallow embedding of the twstock-heatmap pipeline
(`skills/twstock-heatmap/scripts/analyze_twstock.py` and
`skills/twstock-heatmap/scripts/scrape_histock.py`), covering the data
model and the operations the specification talks about: the mapping
loader, the reconciliation step inside `analyze_single_image`, the
per-category loop of `main`, and the JSON envelope builders.
-/

/-- Candidate as produced by the vision model: `{"name": ..., "change": ...}`
(`stock.get("name", "")` / `stock.get("change", "")` in
`analyze_twstock.py` lines 160-161). -/
structure Candidate where
  name : String
  change : String
deriving DecidableEq, Repr

/-- ResolvedStock as built at `analyze_twstock.py` lines 187-191:
`{"ticker": ticker, "name": stock_name, "change": change_str}`. -/
structure ResolvedStock where
  ticker : String
  name : String
  change : String
deriving DecidableEq, Repr

/-- Lookup in a Python dict modelled as an association list of its
assignments in order: `dict.get(k)` returns the value of the LAST
assignment to `k` (last-write-wins), `none` when `k` was never assigned. -/
def dictGet? {α : Type} (m : List (String × α)) (k : String) : Option α :=
  (m.reverse.find? (fun p => p.1 == k)).map Prod.snd

/-- Python `dict.get(k, default)`. -/
def dictGetD {α : Type} (m : List (String × α)) (k : String) (default : α) : α :=
  (dictGet? m k).getD default

/-- Python `m[k] = v` on a dict kept as an insertion-ordered association
list with unique keys: replaces the value in place when `k` is present,
appends `(k, v)` otherwise. -/
def dictSet {α : Type} (m : List (String × α)) (k : String) (v : α) :
    List (String × α) :=
  if (m.find? (fun p => p.1 == k)).isSome then
    m.map (fun p => if p.1 == k then (k, v) else p)
  else m ++ [(k, v)]

/-- Python `s.replace(c, "")` for a one-character pattern `c`: deletes
every occurrence of the character (`analyze_twstock.py` line 174 uses it
with `"%"` and `"+"`). -/
def pyDeleteChar (s : String) (c : Char) : String :=
  String.mk (s.toList.filter (fun x => x ≠ c))

/-- Nat value of a list of decimal digit characters (most significant first). -/
def natOfDigits (cs : List Char) : Nat :=
  cs.foldl (fun n c => 10 * n + (c.toNat - 48)) 0

/-- Leading and trailing whitespace removed, as Python `str.strip()` with
no argument (modelled for ASCII whitespace). -/
def pyStrip (s : String) : String :=
  String.mk (((s.toList.dropWhile Char.isWhitespace).reverse.dropWhile
    Char.isWhitespace).reverse)

/-- Exponent part of a float literal after the `e`/`E`: optional sign then
one or more digits. -/
def parseExp? (cs : List Char) : Option Int :=
  match cs with
  | [] => none
  | '+' :: rest =>
      if rest ≠ [] ∧ rest.all Char.isDigit then some (natOfDigits rest) else none
  | '-' :: rest =>
      if rest ≠ [] ∧ rest.all Char.isDigit then some (-(natOfDigits rest : Int))
      else none
  | _ => if cs.all Char.isDigit then some (natOfDigits cs) else none

/-- Exact rational value `sign * mantissa * 10 ^ (e - fracLen)` of a
decimal literal with `fracLen` digits after the point and exponent `e`,
built with a single `Rat.divInt` over integer arithmetic. -/
def decimalValue (sign : Int) (mantissa : Nat) (fracLen : Nat) (e : Int) : ℚ :=
  let shift : Int := e - fracLen
  Rat.divInt (sign * (mantissa : Int) * (((10 : Nat) ^ shift.toNat : Nat) : Int))
    (((10 : Nat) ^ (-shift).toNat : Nat) : Int)

/-- Python's `float(s)` on decimal string notation, with the value kept
exactly in `ℚ`: surrounding whitespace stripped, an optional sign, digits
with at most one decimal point (at least one digit overall), and an
optional `e`/`E` exponent. The special float spellings `inf`/`nan`,
digit-group underscores and non-ASCII digits are not modelled and are
treated as parse failures; none of them occur in the repository's data or
in the specification's examples, and every property proved below that
quantifies over all strings is independent of which strings parse. -/
def pyFloat? (s : String) : Option ℚ :=
  let cs := (pyStrip s).toList
  let signAndRest : Int × List Char :=
    match cs with
    | '-' :: rest => (-1, rest)
    | '+' :: rest => (1, rest)
    | _ => (1, cs)
  let sign := signAndRest.1
  let cs1 := signAndRest.2
  let intPart := cs1.takeWhile Char.isDigit
  let rest1 := cs1.dropWhile Char.isDigit
  let fracAndRest : List Char × List Char :=
    match rest1 with
    | '.' :: r => (r.takeWhile Char.isDigit, r.dropWhile Char.isDigit)
    | _ => ([], rest1)
  let fracPart := fracAndRest.1
  let rest2 := fracAndRest.2
  if intPart.isEmpty && fracPart.isEmpty then none
  else
    let mantissa := natOfDigits (intPart ++ fracPart)
    match rest2 with
    | [] => some (decimalValue sign mantissa fracPart.length 0)
    | 'e' :: r => (parseExp? r).map (decimalValue sign mantissa fracPart.length)
    | 'E' :: r => (parseExp? r).map (decimalValue sign mantissa fracPart.length)
    | _ => none

/-- Change-string parsing exactly as `analyze_twstock.py` line 174:
`float(change_str.replace("%", "").replace("+", ""))`, i.e. delete every
`%` character, then every `+` character, then read the remainder as a
float; `none` models the `ValueError` caught at line 180. -/
def parseChange (change_str : String) : Option ℚ :=
  pyFloat? (pyDeleteChar (pyDeleteChar change_str '%') '+')

/-- Reconciliation loop of `analyze_single_image`
(`analyze_twstock.py` lines 159-194): for each candidate in order, look
the name up in `stock_mapping` (skip when absent or empty), parse the
change string (skip on failure), skip when `decline_value > threshold`,
otherwise emit `{ticker, name, change}`. The source fixes the threshold
literal to `-3.0` at line 177; it is abstracted here as the parameter
`threshold` so that specification statements quantifying over thresholds
can be expressed, and `analyze_process` below instantiates it at `-3`
exactly as the source does. -/
def reconcile (threshold : ℚ) (stock_mapping : List (String × String)) :
    List Candidate → List ResolvedStock
  | [] => []
  | stock :: rest =>
    let ticker := dictGetD stock_mapping stock.name ""
    if ticker = "" then reconcile threshold stock_mapping rest
    else
      match parseChange stock.change with
      | none => reconcile threshold stock_mapping rest
      | some decline_value =>
        if decline_value > threshold then reconcile threshold stock_mapping rest
        else ⟨ticker, stock.name, stock.change⟩ :: reconcile threshold stock_mapping rest

/-- Change-string parsing as the specification words it (§4.1 step 2):
strip one trailing `"%"` and one leading `"+"`, then parse as a signed
decimal. Declared only to compare the specification's description with
`parseChange`, the parsing the source actually performs. -/
def specParseChange (change_str : String) : Option ℚ :=
  let cs := change_str.toList
  let cs1 := if cs.getLast? = some '%' then cs.dropLast else cs
  let cs2 := match cs1 with
    | '+' :: r => r
    | _ => cs1
  pyFloat? (String.mk cs2)

/-- Survival predicate of the reconciliation loop: the name resolves to a
non-empty ticker, the change string parses, and the parsed value is not
above the threshold. -/
def keeps (threshold : ℚ) (stock_mapping : List (String × String))
    (c : Candidate) : Bool :=
  (dictGetD stock_mapping c.name "" != "") &&
    match parseChange c.change with
    | none => false
    | some decline_value => decide (decline_value ≤ threshold)

/-- Reshaping of a surviving candidate into a ResolvedStock
(`analyze_twstock.py` lines 187-191). -/
def resolveStock (stock_mapping : List (String × String)) (c : Candidate) :
    ResolvedStock :=
  ⟨dictGetD stock_mapping c.name "", c.name, c.change⟩

/-- Value stored under `"top_losers"` in `analyze_single_image`'s result:
either the model's raw candidate list (left untouched when the mapping is
empty) or the reconciled list. -/
abbrev TopLosers : Type := List Candidate ⊕ List ResolvedStock

/-- Length of whichever list is stored under `"top_losers"`. -/
def topLosersLength : TopLosers → Nat
  | Sum.inl cs => cs.length
  | Sum.inr rs => rs.length

/-- Payload `analyze_single_image` parses out of a successful model
response (`analyze_twstock.py` lines 108-116 and 149): the prompt demands
a JSON object with exactly these members, so the modelled responses
always carry the `top_losers` key. -/
structure AnalysisData where
  top_losers : List Candidate
  market : String
  industry : String
deriving DecidableEq, Repr

/-- Result dictionary returned by `analyze_single_image`. -/
structure AnalysisResult where
  top_losers : TopLosers
  market : String
  industry : String
  error : Option String
deriving DecidableEq

/-- Ticker/threshold processing block of `analyze_single_image`
(`analyze_twstock.py` lines 149-201): the reconciliation runs only when
`stock_mapping` is truthy, i.e. non-empty (line 154: `if stock_mapping and
"top_losers" in data:`); a `None` or empty mapping leaves the parsed data
untouched. The threshold is the source's hard-coded `-3.0`. -/
def analyze_process (stock_mapping : List (String × String))
    (top_losers : List Candidate) : TopLosers :=
  if stock_mapping.isEmpty then Sum.inl top_losers
  else Sum.inr (reconcile (-3) stock_mapping top_losers)

/-- Behaviour of `analyze_single_image` (`analyze_twstock.py` lines
73-211) as a function of the outcome of its guarded region (lines
136-201: the API request, response decoding, JSON extraction and the
reconciliation block, all wrapped in one `try`). An `Except.error`
models any exception raised inside that region and returns the
empty-list structure built at lines 206-211; image encoding at line 82
happens before the guard and is modelled as part of the caller's loop
(`CatOutcome.raises` below). -/
def analyze_single_image (stock_mapping : List (String × String))
    (industry_name : String) (outcome : Except String AnalysisData) :
    AnalysisResult :=
  match outcome with
  | Except.error e =>
      { top_losers := Sum.inr [], market := "taiwan",
        industry := industry_name, error := some e }
  | Except.ok data =>
      { top_losers := analyze_process stock_mapping data.top_losers,
        market := data.market, industry := data.industry, error := none }

/-- Outcome of one iteration of `main`'s per-category loop
(`analyze_twstock.py` lines 345-380) for a given category input. -/
inductive CatOutcome where
  /-- Neither the project-relative nor the absolute image path exists:
  warning printed, `continue` (lines 359-361). -/
  | imageMissing
  /-- An exception escapes the loop body outside `analyze_single_image`'s
  guarded region (e.g. `encode_image` on an unreadable file): caught at
  line 378, the category is recorded as `[]`. -/
  | raises (msg : String)
  /-- The image exists and `analyze_single_image` runs; the guarded
  region's outcome is `response`. -/
  | analyzed (response : Except String AnalysisData)

/-- One `-i` input of `main` after the `type:path` split: the category
name together with what happens when the loop processes it. -/
structure CatInput where
  industry_type : String
  outcome : CatOutcome

/-- Per-category loop of `main` (`analyze_twstock.py` lines 343-380),
returning the sequence of assignments `results[industry_type] = ...` it
performs in order; the `results` dict is these pairs applied left to
right. -/
def process_inputs (stock_mapping : List (String × String)) :
    List CatInput → List (String × TopLosers)
  | [] => []
  | i :: rest =>
    match i.outcome with
    | CatOutcome.imageMissing => process_inputs stock_mapping rest
    | CatOutcome.raises _ =>
        (i.industry_type, Sum.inr []) :: process_inputs stock_mapping rest
    | CatOutcome.analyzed response =>
        (i.industry_type,
          (analyze_single_image stock_mapping i.industry_type response).top_losers)
          :: process_inputs stock_mapping rest

/-- Row of `data/StockMapping.csv` (columns `name,ticker,industry,market`). -/
structure CsvRow where
  name : String
  ticker : String
  industry : String
  market : String
deriving DecidableEq

namespace AnalyzeTwstock

/-- Mapping loader of `analyze_twstock.py` (lines 43-62): the file-system
state at `data/StockMapping.csv` is `none` when the file does not exist
and `some rows` when it exists and parses; a missing file only prints a
warning and the empty dict built at line 47 is returned. The function is
total, modelling that the missing-file path raises nothing. -/
def load_stock_mapping (csv_file : Option (List CsvRow)) :
    List (String × String) :=
  match csv_file with
  | none => []
  | some rows =>
      rows.foldl (fun m row => dictSet m row.name row.ticker) []

end AnalyzeTwstock

/-- Industry/market record stored by the scraper's mapping loader. -/
structure MappingInfo where
  industry : String
  market : String
deriving DecidableEq

namespace ScrapeHistock

/-- Mapping loader of `scrape_histock.py` (lines 29-43): returns the empty
dict when `csv_path.exists()` is false, otherwise keys each row's stripped
ticker (skipping empty tickers) to its industry/market record. Total: the
missing-file path raises nothing. -/
def load_stock_mapping (csv_file : Option (List CsvRow)) :
    List (String × MappingInfo) :=
  match csv_file with
  | none => []
  | some rows =>
      rows.foldl (fun m row =>
        let ticker := pyStrip row.ticker
        if ticker = "" then m
        else dictSet m ticker ⟨pyStrip row.industry, pyStrip row.market⟩) []

end ScrapeHistock

/-- JSON values, for the shape of the on-disk artifacts. -/
inductive JsonVal where
  | str (s : String)
  | num (q : ℚ)
  | arr (xs : List JsonVal)
  | obj (members : List (String × JsonVal))

/-- Top-level member names of a JSON object. -/
def objFields : JsonVal → List String
  | JsonVal.obj members => members.map Prod.fst
  | _ => []

/-- Envelope written by `save_json_api` (`analyze_twstock.py` lines
214-234) around the combined per-category results, with `current_time`
the formatted UTC timestamp of line 217. -/
def save_json_api (data : JsonVal) (current_time : String) : JsonVal :=
  JsonVal.obj
    [("status", JsonVal.str "success"),
     ("data", data),
     ("version", JsonVal.str "2.0"),
     ("market", JsonVal.str "taiwan"),
     ("source", JsonVal.str "nstock.tw"),
     ("last_updated", JsonVal.str current_time),
     ("generated_at", JsonVal.str current_time)]

/-- Object written by `scrape_histock.py`'s `main` (lines 130-135) around
the scraped rows. -/
def scrape_output (results : List JsonVal) : JsonVal :=
  JsonVal.obj
    [("status", JsonVal.str "success"),
     ("source", JsonVal.str "https://histock.tw/stock/rank.aspx?m=4&d=0&t=dt"),
     ("count", JsonVal.num (results.length : ℚ)),
     ("data", JsonVal.arr results)]

/-- Field list named by the specification's ResultEnvelope contract. -/
def envelopeFields : List String :=
  ["status", "data", "version", "market", "source", "last_updated",
   "generated_at"]

/-- Characterization of the reconciliation loop as a stable filter
followed by the reshaping map. -/
theorem reconcile_eq_filter_map (t : ℚ) (m : List (String × String)) :
    ∀ cs : List Candidate,
      reconcile t m cs = (cs.filter (keeps t m)).map (resolveStock m)
  | [] => rfl
  | c :: rest => by
    have ih := reconcile_eq_filter_map t m rest
    by_cases hTick : dictGetD m c.name "" = ""
    · simp [reconcile, List.filter_cons, keeps, hTick, ih]
    · cases hParse : parseChange c.change with
      | none =>
          simp [reconcile, List.filter_cons, keeps, hTick, hParse, ih]
      | some v =>
          by_cases hv : v ≤ t
          · simp [reconcile, List.filter_cons, keeps, hTick, hParse, hv,
              not_lt.mpr hv, resolveStock, ih]
          · simp [reconcile, List.filter_cons, keeps, hTick, hParse, hv,
              lt_of_not_le hv, ih]

/-- Nonempty result of `dict.get` with default `""` pins down the
underlying lookup. -/
theorem dictGet?_of_getD_ne {m : List (String × String)} {k : String}
    (h : dictGetD m k "" ≠ "") : dictGet? m k = some (dictGetD m k "") := by
  unfold dictGetD at *
  cases hg : dictGet? m k with
  | none => rw [hg] at h; simp at h
  | some v => simp [hg]

/-- C1: every ResolvedStock produced by the reconciliation loop, for any
candidate sequence, name-to-ticker mapping, and threshold, has a
non-empty ticker that is exactly the value the supplied mapping stores
under the stock's name; in particular no output entry has a name absent
from the mapping. -/
theorem reconcile_ticker_invariant (t : ℚ) (m : List (String × String))
    (cs : List Candidate) :
    ∀ r ∈ reconcile t m cs, r.ticker ≠ "" ∧ dictGet? m r.name = some r.ticker := by
  intro r hr
  rw [reconcile_eq_filter_map] at hr
  rcases List.mem_map.mp hr with ⟨c, hc, rfl⟩
  have hk : keeps t m c = true := List.of_mem_filter hc
  have hTick : dictGetD m c.name "" ≠ "" := by
    unfold keeps at hk
    rcases Bool.and_eq_true_iff.mp hk with ⟨h1, _⟩
    exact fun hcontra => by simp [hcontra] at h1
  exact ⟨hTick, dictGet?_of_getD_ne hTick⟩

/-- Witness for C1 at the specification's own example mapping and input. -/
theorem reconcile_ticker_invariant_witness :
    ("2330" : String) ≠ "" ∧
      dictGet? [("台積電", "2330")] "台積電" = some "2330" :=
  reconcile_ticker_invariant (-3) [("台積電", "2330")]
    [⟨"台積電", "-5.2%"⟩] ⟨"2330", "台積電", "-5.2%"⟩ (by decide)

/-- C2: with an empty name-to-ticker mapping the reconciliation block of
`analyze_single_image` is skipped entirely (the `if stock_mapping and
"top_losers" in data` gate at line 154 is false), so the model's candidate
list is returned unchanged: no ticker resolution, no unresolved-name
dropping and no threshold filtering happen. -/
theorem analyze_empty_mapping_passthrough (industry_name : String)
    (data : AnalysisData) :
    (analyze_single_image [] industry_name (Except.ok data)).top_losers =
      Sum.inl data.top_losers := rfl

/-- C3: on the specification's concrete example — mapping 台積電 to 2330,
threshold -3.0 — the three candidates reconcile to exactly the single
resolved entry for the first: the second is dropped by the threshold and
the third by its unresolved name. -/
theorem reconcile_spec_example :
    reconcile (-3) [("台積電", "2330")]
      [⟨"台積電", "-5.2%"⟩, ⟨"台積電", "-1.0%"⟩, ⟨"未知公司", "-9.9%"⟩] =
      [⟨"2330", "台積電", "-5.2%"⟩] := by decide

/-- C6: the reconciliation output is a stable filter of its input for
every mapping and threshold: its length never exceeds the input length,
every output element is the reshaping of some input candidate (nothing is
invented), and the output is literally the order-preserving filter of the
input followed by the reshaping map (no re-sorting). -/
theorem reconcile_stable_filter (t : ℚ) (m : List (String × String))
    (cs : List Candidate) :
    (reconcile t m cs).length ≤ cs.length ∧
    (∀ r ∈ reconcile t m cs, ∃ c ∈ cs, r = resolveStock m c) ∧
    reconcile t m cs = (cs.filter (keeps t m)).map (resolveStock m) := by
  refine ⟨?_, ?_, reconcile_eq_filter_map t m cs⟩
  · rw [reconcile_eq_filter_map, List.length_map]
    exact List.length_filter_le _ cs
  · intro r hr
    rw [reconcile_eq_filter_map] at hr
    rcases List.mem_map.mp hr with ⟨c, hc, rfl⟩
    exact ⟨c, List.mem_of_mem_filter hc, rfl⟩

/-- Witness for C6's origin clause on a concrete input. -/
theorem reconcile_stable_filter_witness :
    ∃ c ∈ [(⟨"台積電", "-5.2%"⟩ : Candidate)],
      (⟨"2330", "台積電", "-5.2%"⟩ : ResolvedStock) =
        resolveStock [("台積電", "2330")] c :=
  (reconcile_stable_filter (-3) [("台積電", "2330")]
    [⟨"台積電", "-5.2%"⟩]).2.1 ⟨"2330", "台積電", "-5.2%"⟩ (by decide)

/-- Parse failure of the literal `"abc"`, shared by the claims about
dropped candidates. -/
theorem parseChange_abc : parseChange "abc" = none := by decide

/-- C4: for every configured threshold, the reconciliation keeps a
candidate whose name resolves to a non-empty ticker exactly when its
parsed change value satisfies `value ≤ threshold` (the source tests
`decline_value > -3.0` and skips on success, line 177); concretely, under
threshold -3.0 a candidate parsing to -2.5 is dropped and one parsing to
exactly -3.0 is kept. -/
theorem reconcile_threshold_rule :
    (∀ (t : ℚ) (m : List (String × String)) (c : Candidate) (v : ℚ),
        dictGetD m c.name "" ≠ "" → parseChange c.change = some v →
        reconcile t m [c] = if v ≤ t then [resolveStock m c] else []) ∧
    reconcile (-3) [("台積電", "2330")] [⟨"台積電", "-2.5%"⟩] = [] ∧
    reconcile (-3) [("台積電", "2330")] [⟨"台積電", "-3.0%"⟩] =
      [⟨"2330", "台積電", "-3.0%"⟩] := by
  refine ⟨?_, by decide, by decide⟩
  intro t m c v hTick hParse
  by_cases hv : v ≤ t
  · simp [reconcile, hTick, hParse, hv, not_lt.mpr hv, resolveStock]
  · simp [reconcile, hTick, hParse, hv, lt_of_not_le hv]

/-- Witness for C4's general clause at a concrete candidate. -/
theorem reconcile_threshold_rule_witness :
    reconcile (-3) [("台積電", "2330")] [⟨"台積電", "-5.2%"⟩] =
      if (Rat.divInt (-52) 10 : ℚ) ≤ -3 then
        [resolveStock [("台積電", "2330")] ⟨"台積電", "-5.2%"⟩]
      else [] :=
  reconcile_threshold_rule.1 (-3) [("台積電", "2330")]
    ⟨"台積電", "-5.2%"⟩ (Rat.divInt (-52) 10) (by decide) (by decide)

/-- C5 counterexample: the claim's parse rule (strip one trailing `%` and
one leading `+`) rejects the change string `"-3%%"`, so the claim says a
candidate carrying it is dropped; the source instead deletes every `%`
and `+` character (line 174), parses `-3`, and keeps the candidate. -/
theorem reconcile_strip_parse_cex :
    specParseChange "-3%%" = none ∧
    parseChange "-3%%" = some (-3) ∧
    reconcile (-3) [("台積電", "2330")] [⟨"台積電", "-3%%"⟩] =
      [⟨"2330", "台積電", "-3%%"⟩] := by
  refine ⟨by decide, by decide, by decide⟩

/-- C5 amended: the reconciliation parses a change string by deleting
every `%` and every `+` character and reading the remainder as a decimal
number; for every threshold and mapping, each candidate whose change
string fails to parse this way is dropped — every output entry carries a
parsable change, and the spec's `"abc"` example is always dropped. -/
theorem reconcile_drops_unparsable :
    (∀ (t : ℚ) (m : List (String × String)) (cs : List Candidate),
        ∀ r ∈ reconcile t m cs, ∃ v, parseChange r.change = some v) ∧
    (∀ (t : ℚ) (m : List (String × String)) (nm : String),
        reconcile t m [⟨nm, "abc"⟩] = []) := by
  constructor
  · intro t m cs r hr
    rw [reconcile_eq_filter_map] at hr
    rcases List.mem_map.mp hr with ⟨c, hc, rfl⟩
    have hk : keeps t m c = true := List.of_mem_filter hc
    unfold keeps at hk
    rcases Bool.and_eq_true_iff.mp hk with ⟨_, h2⟩
    cases hParse : parseChange c.change with
    | none => rw [hParse] at h2; simp at h2
    | some v => exact ⟨v, hParse⟩
  · intro t m nm
    by_cases hTick : dictGetD m nm "" = ""
    · simp [reconcile, hTick]
    · simp [reconcile, hTick, parseChange_abc]

/-- Witness for C5's amended claim at a concrete output entry. -/
theorem reconcile_drops_unparsable_witness :
    ∃ v, parseChange "-5.2%" = some v :=
  reconcile_drops_unparsable.1 (-3) [("台積電", "2330")]
    [⟨"台積電", "-5.2%"⟩] ⟨"2330", "台積電", "-5.2%"⟩ (by decide)

/-- C7: the modelled `analyze_single_image` is a total function of the
guarded region's outcome — per-item failures inside the reconciliation
are skips, and any error of the guarded region (API failure, unparsable
response, unreadable data) yields the fallback structure whose
`top_losers` list is empty (lines 203-211); moreover when every candidate
fails resolution the reconciliation degrades to the empty list rather
than an exception. -/
theorem analyze_single_image_degrades :
    (∀ (m : List (String × String)) (industry_name e : String),
        (analyze_single_image m industry_name (Except.error e)).top_losers =
            Sum.inr [] ∧
          topLosersLength
            (analyze_single_image m industry_name (Except.error e)).top_losers = 0) ∧
    (∀ (t : ℚ) (m : List (String × String)) (cs : List Candidate),
        (∀ c ∈ cs, keeps t m c = false) → reconcile t m cs = []) := by
  constructor
  · intro m industry_name e
    exact ⟨rfl, rfl⟩
  · intro t m cs hall
    rw [reconcile_eq_filter_map]
    have : cs.filter (keeps t m) = [] := by
      rw [List.filter_eq_nil_iff]
      intro c hc
      simp [hall c hc]
    rw [this]; rfl

/-- Witness for C7's degradation clause: every candidate of a concrete
input fails resolution and the output is empty. -/
theorem analyze_single_image_degrades_witness :
    reconcile (-3) [("台積電", "2330")]
      [⟨"未知公司", "-9.9%"⟩, ⟨"台積電", "abc"⟩] = [] :=
  analyze_single_image_degrades.2 (-3) [("台積電", "2330")]
    [⟨"未知公司", "-9.9%"⟩, ⟨"台積電", "abc"⟩] (by decide)

/-- C8 counterexample: when the first category's image is missing, the
loop skips it with only a warning (`continue` at line 361) and records NO
entry at all for that category — not the empty result the claim
describes — while still processing the next category. -/
theorem main_loop_missing_image_cex :
    process_inputs [("台積電", "2330")]
      [⟨"tse", CatOutcome.imageMissing⟩,
       ⟨"otc", CatOutcome.analyzed
         (Except.ok ⟨[⟨"台積電", "-5.2%"⟩], "taiwan", "otc"⟩)⟩] =
      [("otc", Sum.inr [⟨"2330", "台積電", "-5.2%"⟩])] ∧
    (process_inputs [("台積電", "2330")]
        [⟨"tse", CatOutcome.imageMissing⟩,
         ⟨"otc", CatOutcome.analyzed
           (Except.ok ⟨[⟨"台積電", "-5.2%"⟩], "taiwan", "otc"⟩)⟩]).map
        Prod.fst = ["otc"] := by
  exact ⟨rfl, rfl⟩

/-- C8 amended: a failure on one category never halts the loop — the
remaining categories are processed identically — but the two failure
modes are recorded differently: an exception inside the loop body is
caught at the loop boundary (line 378) and records the category as an
empty list, while a missing input image is skipped with a warning and no
entry for that category is recorded at all. -/
theorem main_loop_continues (m : List (String × String)) (i : CatInput)
    (rest : List CatInput) :
    (i.outcome = CatOutcome.imageMissing →
        process_inputs m (i :: rest) = process_inputs m rest) ∧
    (∀ msg, i.outcome = CatOutcome.raises msg →
        process_inputs m (i :: rest) =
          (i.industry_type, (Sum.inr [] : TopLosers)) :: process_inputs m rest) := by
  constructor
  · intro h
    simp [process_inputs, h]
  · intro msg h
    simp [process_inputs, h]

/-- Witness for C8's amended claim: a raising category records an empty
list and the next category is still processed. -/
theorem main_loop_continues_witness :
    process_inputs [("台積電", "2330")]
      [⟨"tse", CatOutcome.raises "boom"⟩,
       ⟨"otc", CatOutcome.analyzed
         (Except.ok ⟨[⟨"台積電", "-5.2%"⟩], "taiwan", "otc"⟩)⟩] =
      ("tse", (Sum.inr [] : TopLosers)) ::
        process_inputs [("台積電", "2330")]
          [⟨"otc", CatOutcome.analyzed
            (Except.ok ⟨[⟨"台積電", "-5.2%"⟩], "taiwan", "otc"⟩)⟩] :=
  (main_loop_continues [("台積電", "2330")]
    ⟨"tse", CatOutcome.raises "boom"⟩
    [⟨"otc", CatOutcome.analyzed
      (Except.ok ⟨[⟨"台積電", "-5.2%"⟩], "taiwan", "otc"⟩)⟩]).2 "boom" rfl

/-- C9: both mapping loaders return the empty table when the CSV file
does not exist — `analyze_twstock.py` only prints a warning (line 60) and
returns the dict initialized at line 47, `scrape_histock.py` returns at
line 33 — and, being total functions of the file-system state, neither
raises. -/
theorem load_stock_mapping_missing_file :
    AnalyzeTwstock.load_stock_mapping none = [] ∧
    ScrapeHistock.load_stock_mapping none = [] :=
  ⟨rfl, rfl⟩

/-- C10 counterexample: the scraper's on-disk artifact
(`scrape_histock.py` lines 130-135) does not conform to the
seven-field ResultEnvelope shape — it has fields
`status, source, count, data`, lacking `version`, `market`,
`last_updated` and `generated_at` and adding `count`. -/
theorem envelope_shape_cex :
    objFields (scrape_output []) = ["status", "source", "count", "data"] ∧
    objFields (scrape_output []) ≠ envelopeFields := by
  exact ⟨rfl, by decide⟩

/-- C10 amended: the vision-analysis artifact written by `save_json_api`
carries exactly the envelope fields `status, data, version, market,
source, last_updated, generated_at`, for any wrapped data and timestamp;
the scraper's artifact instead carries exactly
`status, source, count, data`. -/
theorem envelope_shapes (data : JsonVal) (current_time : String)
    (results : List JsonVal) :
    objFields (save_json_api data current_time) = envelopeFields ∧
    objFields (scrape_output results) = ["status", "source", "count", "data"] :=
  ⟨rfl, rfl⟩
